import Mathlib

/-!
Shallow embedding of the geojson-to-wfs-t-2 library (src/dist/es5.es.js): a
library that converts GeoJSON features into GML 3.2 geometry fragments and
WFS-T 2.0 transaction documents.

Modelling conventions:
* JavaScript values are modelled by `JSVal`; the JavaScript `undefined` is
  modelled as `Option.none` at every lookup boundary (an absent object key),
  never as a `JSVal` constructor.
* Thrown JavaScript exceptions are modelled by `Except Err`; an `Error`
  object that is *returned* as an ordinary value (as `geomToGml` does for an
  unrecognized geometry type) is modelled by the `GmlRet.errorObject`
  constructor, distinct from `Except.error`.
* The process-wide mutable `config.coordinateOrder` flag is modelled as an
  explicit boolean parameter (`cfg`) threaded through the geometry encoders;
  its initial value in the source is `true`.
* JavaScript numbers are modelled as `Int` (the claims only exercise integer
  coordinates); `NaN` is not representable, so the source's
  `Number.isNaN` guard in `useWhitelistIfAvailable`, which can never fire on
  this value space, is omitted.
* Stringification of nested arrays (`Array.prototype.toString`) is modelled
  one level deep; no operation of the library coerces a nested array to a
  string on the inputs the claims are about.
-/

namespace GeoWfst

/- A GeoJSON geometry value, tagged exactly like the `converter` dispatch
table of the source: the eight recognized kinds plus an `unknown` case whose
payload is the unrecognized JavaScript `type` tag.  `GeometryList` is the
list of member geometries of a `GeometryCollection` (a separate mutual type
so that the encoders can recurse structurally). -/
mutual

inductive Geometry where
  | point (coordinates : List Int)
  | lineString (coordinates : List (List Int))
  | linearRing (coordinates : List (List Int))
  | polygon (coordinates : List (List (List Int)))
  | multiPoint (coordinates : List (List Int))
  | multiLineString (coordinates : List (List (List Int)))
  | multiPolygon (coordinates : List (List (List (List Int))))
  | geometryCollection (geometries : GeometryList)
  | unknown (typeTag : String)

inductive GeometryList where
  | nil
  | cons (head : Geometry) (tail : GeometryList)

end

/-- A JavaScript value as the library manipulates them.  `undefined` is
represented by `Option.none` at lookup boundaries, not by a constructor. -/
inductive JSVal where
  | str (s : String)
  | num (n : Int)
  | bool (b : Bool)
  | null
  | obj (fields : List (String × JSVal))
  | arr (elems : List JSVal)
  | geom (g : Geometry)

/-- A JavaScript object: an insertion-ordered association list. -/
abbrev JSObj := List (String × JSVal)

/-- Thrown JavaScript errors of the library, by throw site. -/
inductive Err where
  | noTagSupplied (ns tagName : String)
  | noTypenamePossible (tn ns layer : String)
  | unassignedNamespace (ns : String)
  | unexpectedInput (desc : String)
  | typeError (msg : String)
  | stackOverflow
  deriving DecidableEq

/-- JavaScript truthiness of a value. -/
def truthy : JSVal → Bool
  | .str s => !(s == "")
  | .num n => !(n == 0)
  | .bool b => b
  | .null => false
  | .obj _ => true
  | .arr _ => true
  | .geom _ => true

/-- Truthiness of a possibly-`undefined` value. -/
def truthyOpt : Option JSVal → Bool
  | some v => truthy v
  | none => false

/-- One level of JavaScript string coercion, used for the elements of an
array being coerced (where `null`/`undefined` render as the empty string);
nested arrays are approximated by the empty string (never exercised). -/
def jsToStringShallow : JSVal → String
  | .str s => s
  | .num n => toString n
  | .bool b => cond b "true" "false"
  | .null => ""
  | .obj _ => "[object Object]"
  | .arr _ => ""
  | .geom _ => "[object Object]"

/-- JavaScript string coercion `String(v)`. -/
def jsToString : JSVal → String
  | .str s => s
  | .num n => toString n
  | .bool b => cond b "true" "false"
  | .null => "null"
  | .obj _ => "[object Object]"
  | .arr l => String.intercalate "," (l.map jsToStringShallow)
  | .geom _ => "[object Object]"

/-- String coercion of a possibly-`undefined` value. -/
def jsToStringOpt : Option JSVal → String
  | some v => jsToString v
  | none => "undefined"

/-- How `Array.prototype.join` renders one argument of `geomToGml`
(`undefined` and `null` join as the empty string). -/
def joinArg : Option JSVal → String
  | none => ""
  | some .null => ""
  | some v => jsToString v

/-- First-match lookup in a JavaScript object (property read `m[k]`). -/
def lookupJS : JSObj → String → Option JSVal
  | [], _ => none
  | p :: rest, k => if p.1 == k then some p.2 else lookupJS rest k

/-- JavaScript property assignment `m[k] = v`: overwriting keeps the key's
position, a fresh key is appended. -/
def objSet (m : JSObj) (k : String) (v : JSVal) : JSObj :=
  if m.any (fun p => p.1 == k) then
    m.map (fun p => if p.1 == k then (k, v) else p)
  else
    m ++ [(k, v)]

/-- Removal of a key from a JavaScript object. -/
def objRemove (m : JSObj) (k : String) : JSObj :=
  m.filter (fun p => !(p.1 == k))

/-- Property read `v[k]` on an arbitrary value: only objects carry own
properties here (string/number wrappers have none of the keys used). -/
def getField : JSVal → String → Option JSVal
  | .obj fields, k => lookupJS fields k
  | _, _ => none

/-- The JavaScript expression `(x || {}).id`. -/
def getIdOf (x : Option JSVal) : Option JSVal :=
  if truthyOpt x then getField (x.getD .null) "id" else none

/-- A chain `a || b || ... || default` of JavaScript `||`: the first truthy
operand, else the final default. -/
def jsOrChain : List (Option JSVal) → JSVal → JSVal
  | [], d => d
  | o :: rest, d => if truthyOpt o then o.getD d else jsOrChain rest d

/-- XML escaping of one character (`xml.escape`). -/
def escapeChar (c : Char) : String :=
  match c with
  | '<' => "&lt;"
  | '>' => "&gt;"
  | '&' => "&amp;"
  | '\'' => "&apos;"
  | '"' => "&quot;"
  | c => String.mk [c]

/-- XML escaping of a string (`xml.escape` on strings). -/
def escapeString (s : String) : String :=
  String.join (s.data.map escapeChar)

/-- `xml.escape`: escapes strings, passes every non-string input through. -/
def escape : JSVal → JSVal
  | .str s => .str (escapeString s)
  | v => v

/-- Whether `needle` occurs as a contiguous substring starting at the head. -/
def listStartsWith : List Char → List Char → Bool
  | _, [] => true
  | [], _ :: _ => false
  | h :: t, n :: m => h == n && listStartsWith t m

/-- Substring search helper over character lists. -/
def strContainsAux (needle : List Char) : List Char → Bool
  | [] => listStartsWith [] needle
  | l@(_ :: t) => listStartsWith l needle || strContainsAux needle t

/-- Whether `needle` occurs as a contiguous substring of `hay`. -/
def strContains (hay needle : String) : Bool :=
  strContainsAux needle.data hay.data

/-- `xml.attrs` (`attrs$1` in the bundle): renders an attribute object,
skipping falsy values and XML-escaping the rendered value. -/
def attrs1 (attrsObj : List (String × Option JSVal)) : String :=
  String.join (attrsObj.map (fun p =>
    if truthyOpt p.2 then
      " " ++ p.1 ++ "=\"" ++ jsToString (escape (p.2.getD .null)) ++ "\"" else ""))

/-- `xml.tag`: builds `<ns:tagName attrs>inner</ns:tagName>` (self-closing
when `inner` is the JavaScript `null`), and throws when `tagName` is falsy. -/
def tag (ns tagName : JSVal) (attrsObj : List (String × Option JSVal))
    (inner : Option String) : Except Err String :=
  let t := (if truthy ns then jsToString ns ++ ":" else "") ++ jsToString tagName
  if truthy tagName then
    .ok ("<" ++ t ++ attrs1 attrsObj ++
      (match inner with
       | some s => ">" ++ s ++ "</" ++ t
       | none => " /") ++ ">")
  else
    .error (.noTagSupplied (jsToString ns) (jsToString tagName))

/-- `xml.wfs`: shorthand for a tag in the `wfs` namespace. -/
def wfs (tagName : String) (attrsObj : List (String × Option JSVal))
    (inner : Option String) : Except Err String :=
  tag (.str "wfs") (.str tagName) attrsObj inner

/-- `ensure.id` (`id$1` in the bundle): formats a `layer.id` gml:id, keeping
an id that already contains a dot verbatim. -/
def id1 (lyr : JSVal) (idv : Option JSVal) : JSVal :=
  let coerced := jsToString ((if truthyOpt idv then idv else some (.str "")).getD (.str ""))
  if coerced.data.contains '.' then idv.getD (.str "")
  else .str (jsToString lyr ++ "." ++ jsToStringOpt idv)

/-- `xml.idFilter`: one `fes:ResourceId` predicate for a layer/id pair. -/
def idFilter (lyr : JSVal) (idv : Option JSVal) : String :=
  "<fes:ResourceId rid=\"" ++ jsToString (id1 lyr idv) ++ "\"/>"

/-- `orderCoords`: with the coordinate-order flag set, the tuple is returned
unchanged; otherwise a tuple with a truthy third component has its first two
components swapped, and any other tuple is reversed in place. -/
def orderCoords (coordinateOrder : Bool) (coords : List Int) : List Int :=
  if coordinateOrder then coords
  else
    match coords.get? 2 with
    | some c => if c == 0 then coords.reverse else [coords.getD 1 0, coords.getD 0 0, c]
    | none => coords.reverse

/-- The parameter bag threaded through the geometry encoders. -/
structure GmlParams where
  srsName : Option JSVal
  srsDimension : Option JSVal
  gmlIds : List JSVal

/-- The geometry module's `attrs`: renders an attribute object, skipping
falsy values, with no XML escaping. -/
def attrs (attrMappings : List (String × Option JSVal)) : String :=
  String.join (attrMappings.map (fun p =>
    if truthyOpt p.2 then " " ++ p.1 ++ "=\"" ++ jsToStringOpt p.2 ++ "\"" else ""))

/-- A coordinate tuple rendered as space-separated components. -/
def posText (cfg : Bool) (coords : List Int) : String :=
  String.intercalate " " ((orderCoords cfg coords).map toString)

/-- A coordinate sequence rendered as a `gml:posList` body. -/
def posListText (cfg : Bool) (coords : List (List Int)) : String :=
  String.intercalate " " (coords.map (posText cfg))

/-- `Point` geometry encoder. -/
def Point (cfg : Bool) (coords : List Int) (gmlId : Option JSVal)
    (p : GmlParams) : String :=
  "<gml:Point" ++ attrs [("srsName", p.srsName), ("gml:id", gmlId)] ++ ">" ++
  "<gml:pos" ++ attrs [("srsDimension", p.srsDimension)] ++ ">" ++
  posText cfg coords ++ "</gml:pos>" ++ "</gml:Point>"

/-- `LineString` geometry encoder. -/
def LineString (cfg : Bool) (coords : List (List Int)) (gmlId : Option JSVal)
    (p : GmlParams) : String :=
  "<gml:LineString" ++ attrs [("srsName", p.srsName), ("gml:id", gmlId)] ++ ">" ++
  "<gml:posList" ++ attrs [("srsDimension", p.srsDimension)] ++ ">" ++
  posListText cfg coords ++ "</gml:posList>" ++ "</gml:LineString>"

/-- `LinearRing` geometry encoder (note the source writes gml:id before
srsName here). -/
def LinearRing (cfg : Bool) (coords : List (List Int)) (gmlId : Option JSVal)
    (p : GmlParams) : String :=
  "<gml:LinearRing" ++ attrs [("gml:id", gmlId), ("srsName", p.srsName)] ++ ">" ++
  "<gml:posList" ++ attrs [("srsDimension", p.srsDimension)] ++ ">" ++
  posListText cfg coords ++ "</gml:posList>" ++ "</gml:LinearRing>"

/-- `Polygon` geometry encoder: one `gml:exterior` ring from the first
member, one `gml:interior` per remaining member; an empty coordinate array
makes the source read a property of `undefined` (thrown TypeError). -/
def Polygon (cfg : Bool) (coords : List (List (List Int))) (gmlId : Option JSVal)
    (p : GmlParams) : Except Err String :=
  match coords with
  | [] => .error (.typeError "cannot read map of undefined")
  | r0 :: rest =>
    .ok ("<gml:Polygon" ++ attrs [("srsName", p.srsName), ("gml:id", gmlId)] ++ ">" ++
      "<gml:exterior>" ++ LinearRing cfg r0 none ⟨none, none, []⟩ ++ "</gml:exterior>" ++
      String.join (rest.map (fun r =>
        "<gml:interior>" ++ LinearRing cfg r none ⟨none, none, []⟩ ++ "</gml:interior>")) ++
      "</gml:Polygon>")

/-- The per-member gml:id inside `multi`: `member.id || (gmlIds || [])[i] || ''`
(the member geometries of this model carry no `id` field, as GeoJSON
geometries normally do not). -/
def memberGmlId (gmlIds : List JSVal) (i : Nat) : JSVal :=
  jsOrChain [gmlIds.get? i] (.str "")

/-- Opening text of a `multi` wrapper element and its member container. -/
def multiOpen (name memberName : String) (gmlId : Option JSVal) (p : GmlParams) : String :=
  "<gml:" ++ name ++ attrs [("srsName", p.srsName), ("gml:id", gmlId)] ++ ">" ++
  "<gml:" ++ memberName ++ ">"

/-- Closing text of a `multi` wrapper element. -/
def multiClose (name memberName : String) : String :=
  "</gml:" ++ memberName ++ "></gml:" ++ name ++ ">"

/-- Concatenation of indexed member renderings (pure members). -/
def joinIndexed (f : Nat → α → String) : List α → Nat → String
  | [], _ => ""
  | x :: rest, i => f i x ++ joinIndexed f rest (i + 1)

/-- Concatenation of indexed member renderings (fallible members). -/
def joinIndexedM (f : Nat → α → Except Err String) : List α → Nat → Except Err String
  | [], _ => .ok ""
  | x :: rest, i => do
    let s ← f i x
    let r ← joinIndexedM f rest (i + 1)
    .ok (s ++ r)

/-- `MultiPoint` geometry encoder. -/
def MultiPoint (cfg : Bool) (coords : List (List Int)) (gmlId : Option JSVal)
    (p : GmlParams) : String :=
  multiOpen "MultiPoint" "pointMembers" gmlId p ++
  joinIndexed (fun i c => Point cfg c (some (memberGmlId p.gmlIds i)) p) coords 0 ++
  multiClose "MultiPoint" "pointMembers"

/-- `MultiLineString` geometry encoder (a `gml:MultiCurve`). -/
def MultiLineString (cfg : Bool) (coords : List (List (List Int))) (gmlId : Option JSVal)
    (p : GmlParams) : String :=
  multiOpen "MultiCurve" "curveMembers" gmlId p ++
  joinIndexed (fun i c => LineString cfg c (some (memberGmlId p.gmlIds i)) p) coords 0 ++
  multiClose "MultiCurve" "curveMembers"

/-- `MultiPolygon` geometry encoder (a `gml:MultiSurface`). -/
def MultiPolygon (cfg : Bool) (coords : List (List (List (List Int)))) (gmlId : Option JSVal)
    (p : GmlParams) : Except Err String := do
  let inner ← joinIndexedM (fun i c => Polygon cfg c (some (memberGmlId p.gmlIds i)) p) coords 0
  .ok (multiOpen "MultiSurface" "surfaceMembers" gmlId p ++ inner ++
    multiClose "MultiSurface" "surfaceMembers")

/- `converter`: the dispatch table applied to a geometry, as used both at the
top level and (via `membercb[memberType]`) for the members of a
`GeometryCollection`.  Inside a collection, an unrecognized member type makes
the source call `undefined` as a function, a thrown TypeError. -/
mutual

def converter (cfg : Bool) (g : Geometry) (gmlId : Option JSVal)
    (p : GmlParams) : Except Err String :=
  match g with
  | .point c => .ok (Point cfg c gmlId p)
  | .lineString c => .ok (LineString cfg c gmlId p)
  | .linearRing c => .ok (LinearRing cfg c gmlId p)
  | .polygon c => Polygon cfg c gmlId p
  | .multiPoint c => .ok (MultiPoint cfg c gmlId p)
  | .multiLineString c => .ok (MultiLineString cfg c gmlId p)
  | .multiPolygon c => MultiPolygon cfg c gmlId p
  | .geometryCollection gs => do
    let inner ← converterMembers cfg gs 0 p
    .ok (multiOpen "MultiGeometry" "geometryMembers" gmlId p ++ inner ++
      multiClose "MultiGeometry" "geometryMembers")
  | .unknown t => .error (.typeError ("membercb " ++ t ++ " is not a function"))

def converterMembers (cfg : Bool) (gs : GeometryList) (i : Nat)
    (p : GmlParams) : Except Err String :=
  match gs with
  | .nil => .ok ""
  | .cons g rest => do
    let s ← converter cfg g (some (memberGmlId p.gmlIds i)) p
    let r ← converterMembers cfg rest (i + 1) p
    .ok (s ++ r)

end

/-- The result of `geomToGml`: normally a GML string; for an unrecognized
top-level type tag the source *returns* (does not throw) an `Error` object,
modelled by `errorObject` carrying the error's message. -/
inductive GmlRet where
  | gml (s : String)
  | errorObject (message : String)
  deriving DecidableEq

/-- String coercion of a `geomToGml` result (an `Error` object coerces to
`"Error: " ++ message`). -/
def gmlText : GmlRet → String
  | .gml s => s
  | .errorObject m => "Error: " ++ m

/-- `geomToGml`: dispatches on the geometry's type tag; for an unrecognized
tag `converter[geom.type]` is `undefined`, so the `warn` fallback runs and
an `Error` naming the tag is returned as the result value.  The message tail
models `[...arguments].join()` for the three-argument calls the library
makes. -/
def geomToGml (cfg : Bool) (g : Geometry) (gmlId : Option JSVal)
    (p : GmlParams) : Except Err GmlRet :=
  match g with
  | .unknown t =>
    .ok (.errorObject ("unkown: " ++ t ++ " [object Object]," ++ joinArg gmlId ++
      ",[object Object]"))
  | g => (converter cfg g gmlId p).map GmlRet.gml

/-- The reserved attribute names of `unpack` (`featureMembers` in the
source). -/
def featureMembers : List String := ["properties", "geometry", "id", "layer"]

/-- Resolution of one requested name by `unpack`: `layer` takes the options
bag first, unwrapping an `{id: ...}` object on either side; names outside
the reserved set take the feature first; reserved names take the options bag
first. -/
def resolveArg (feature params : JSObj) (arg : String) : JSVal :=
  if arg == "layer" then
    jsOrChain [getIdOf (lookupJS params "layer"), lookupJS params "layer",
               getIdOf (lookupJS feature "layer"), lookupJS feature "layer"] (.str "")
  else if !(featureMembers.contains arg) then
    jsOrChain [lookupJS feature arg, lookupJS params arg] (.str "")
  else
    jsOrChain [lookupJS params arg, lookupJS feature arg] (.str "")

/-- `utils.unpack`: resolves each requested name into a result object. -/
def unpack (feature params : JSObj) (args : List String) : JSObj :=
  args.map (fun arg => (arg, resolveArg feature params arg))

/-- Iteration of a truthy whitelist with `for..of`: an array iterates its
elements (coerced to strings when used as keys), a string iterates its
characters; other values are not iterable. -/
def iterTexts : JSVal → Except Err (List String)
  | .arr l => .ok (l.map jsToString)
  | .str s => .ok (s.data.map (fun c => String.mk [c]))
  | _ => .error (.typeError "whitelist is not iterable")

/-- `Object.keys` as applied to the `properties` value: an object yields its
keys, a string its indices, anything else no keys. -/
def jsKeys : JSVal → List String
  | .obj fields => fields.map (fun p => p.1)
  | .str s => (List.range s.length).map (fun i => toString i)
  | _ => []

/-- The key loop of `useWhitelistIfAvailable`: keys whose property value is
`undefined` are skipped entirely; every other key is passed to the callback
and the produced fragments are concatenated in key order. -/
def whitelistGo : List String → JSVal → (String → JSVal → Except Err String) →
    Except Err String
  | [], _, _ => .ok ""
  | k :: rest, properties, cb =>
    match getField properties k with
    | some val => do
      let s ← cb k val
      let r ← whitelistGo rest properties cb
      .ok (s ++ r)
    | none => whitelistGo rest properties cb

/-- `utils.useWhitelistIfAvailable`: iterates the whitelist if truthy, else
`Object.keys(properties)` (the source's `Number.isNaN` guard cannot fire on
this value space and is omitted, see the module comment). -/
def useWhitelistIfAvailable (whitelist : Option JSVal) (properties : JSVal)
    (cb : String → JSVal → Except Err String) : Except Err String := do
  let keys ← if truthyOpt whitelist then iterTexts (whitelist.getD .null)
             else .ok (jsKeys properties)
  whitelistGo keys properties cb

/-- JavaScript `\w` (ASCII word character). -/
def isWordChar (c : Char) : Bool := c.isAlphanum || c == '_'

/-- Splits off the maximal leading run of word characters. -/
def wordRun : List Char → List Char × List Char
  | [] => ([], [])
  | c :: rest =>
    if isWordChar c then
      let p := wordRun rest
      (c :: p.1, p.2)
    else ([], c :: rest)

/-- Matches `\w+:` at the head, returning the word and the remainder after
the colon. -/
def matchWordColon (s : List Char) : Option (String × List Char) :=
  let p := wordRun s
  match p.1, p.2 with
  | [], _ => none
  | w, ':' :: r => some (String.mk w, r)
  | _, _ => none

/-- Matches the regex `(<|typeName=")(\w+):` at the head of the text. -/
def matchNsAt : List Char → Option (String × List Char)
  | '<' :: rest => matchWordColon rest
  | 't' :: 'y' :: 'p' :: 'e' :: 'N' :: 'a' :: 'm' :: 'e' :: '=' :: '"' :: rest =>
    matchWordColon rest
  | _ => none

/-- The global-regex scan loop: advances past each match (or by one
character on failure), collecting the set of matched names in first-seen
order, as a JavaScript `Set` iterates. -/
def scanNsGo (fuel : Nat) (s : List Char) (acc : List String) : List String :=
  match fuel with
  | 0 => acc.reverse
  | fuel + 1 =>
    match s with
    | [] => acc.reverse
    | _ :: rest =>
      match matchNsAt s with
      | some pr => scanNsGo fuel pr.2 (if acc.contains pr.1 then acc else pr.1 :: acc)
      | none => scanNsGo fuel rest acc

/-- All namespace abbreviations referenced in a piece of xml, per the scan of
`generateNsAssignments` (tag openings `<ns:` and `typeName="ns:` values). -/
def scanNamespaces (xml : String) : List String :=
  scanNsGo xml.data.length xml.data []

/-- The attribute object built from the caller-declared assignments alone:
each `ns` declared maps `xmlns:ns` to its URI. -/
def nsDeclaredAttrs (nsAssignments : JSObj) : JSObj :=
  nsAssignments.foldl (fun a p => objSet a ("xmlns:" ++ p.1) p.2) []

/-- `utils.generateNsAssignments`: starts from the declared assignments,
injects the default `fes` URI when `fes` is referenced, unconditionally
injects the default `xsi`, `gml` and `wfs` URIs, and throws on the first
referenced namespace that still has no truthy URI. -/
def generateNsAssignments (nsAssignments : JSObj) (xml : String) : Except Err JSObj :=
  let base := nsDeclaredAttrs nsAssignments
  let allNamespaces := scanNamespaces xml
  let withFes :=
    if allNamespaces.contains "fes" then
      objSet base "xmlns:fes" (.str "http://www.opengis.net/fes/2.0")
    else base
  let allAttrs :=
    objSet (objSet (objSet withFes
      "xmlns:xsi" (.str "http://www.w3.org/2001/XMLSchema-instance"))
      "xmlns:gml" (.str "http://www.opengis.net/gml/3.2"))
      "xmlns:wfs" (.str "http://www.opengis.net/wfs/2.0")
  match allNamespaces.find? (fun ns => !truthyOpt (lookupJS allAttrs ("xmlns:" ++ ns))) with
  | some ns => .error (.unassignedNamespace ns)
  | none => .ok allAttrs

/-- `utils.generateSchemaLines`: the caller's uri-to-schema-location map with
the default WFS 2.0 entry forced in, each entry joined by a newline and the
entries joined by newlines. -/
def generateSchemaLines (schemaLocations : Option JSVal) : String :=
  let m := match schemaLocations with
    | some (.obj fields) => fields
    | _ => []
  let m2 := objSet m "http://www.opengis.net/wfs/2.0"
    (.str "http://schemas.opengis.net/wfs/2.0/wfs.xsd")
  String.intercalate "\n" (m2.map (fun p => p.1 ++ "\n" ++ jsToString p.2))

/-- One feature's `gml:_feature` element, as built inside the loop of
`utils.translateFeatures`: an optional geometry field (when a
`geometry_name` resolves truthy), then the whitelisted property fields
(null-valued properties are skipped by the callback), wrapped in a
`<ns:layer gml:id="...">` element. -/
def translateFeature (cfg : Bool) (params : JSObj) (feature : JSObj) :
    Except Err String := do
  let srsName := lookupJS params "srsName"
  let srsDimension := lookupJS params "srsDimension"
  let u := unpack feature params ["ns", "layer", "geometry_name", "properties", "id", "whitelist"]
  let ns := (lookupJS u "ns").getD (.str "")
  let layer := (lookupJS u "layer").getD (.str "")
  let geometry_name := (lookupJS u "geometry_name").getD (.str "")
  let properties := (lookupJS u "properties").getD (.str "")
  let idv := (lookupJS u "id").getD (.str "")
  let whitelist := (lookupJS u "whitelist").getD (.str "")
  let geomField ←
    if truthy geometry_name then do
      let g ← (match lookupJS feature "geometry" with
        | some (.geom g) => Except.ok g
        | _ => Except.error (.typeError "geometry is not a geometry object"))
      let r ← geomToGml cfg g (some (.str "")) ⟨srsName, srsDimension, []⟩
      tag ns geometry_name [] (some (gmlText r))
    else Except.ok ""
  let propFields ← useWhitelistIfAvailable (some whitelist) properties (fun prop val =>
    match val with
    | .null => .ok ""
    | _ => tag ns (.str prop) [] (some (jsToString (escape val))))
  tag ns layer [("gml:id", some (id1 layer (some idv)))] (some (geomField ++ propFields))

/-- The feature loop of `utils.translateFeatures`. -/
def translateGo (cfg : Bool) (params : JSObj) : List JSObj → Except Err String
  | [] => .ok ""
  | f :: rest => do
    let s ← translateFeature cfg params f
    let r ← translateGo cfg params rest
    .ok (s ++ r)

/-- `utils.translateFeatures`. -/
def translateFeatures (cfg : Bool) (features : List JSObj) (params : JSObj) :
    Except Err String :=
  translateGo cfg params features

/-- The shapes an ActionBuilder's `features` argument can take: a single
feature object, an array of features, or a FeatureCollection. -/
inductive FeaturesInput where
  | single (f : JSObj)
  | list (fs : List JSObj)
  | collection (features : List JSObj)

/-- `ensure.array`: `maybe[0].features || [].concat(...maybe)` filtered of
falsy entries.  Passing `undefined` (as `Transaction` does for an absent
action key) makes the source read `.features` of `undefined`, a thrown
TypeError.  Feature objects are truthy, so the final `.filter` keeps all of
them; single feature objects carry no `features` member. -/
def array : Option FeaturesInput → Except Err (List JSObj)
  | none => .error (.typeError "cannot read features of undefined")
  | some (.single f) => .ok [f]
  | some (.list fs) => .ok fs
  | some (.collection fs) => .ok fs

/-- `ensure.typeName`: an explicit truthy typeName wins; else `ns:layerType`
is formed, and if neither is possible the source throws. -/
def typeName (ns layer : JSVal) (tn : Option JSVal) : Except Err JSVal :=
  if !truthyOpt tn && !(truthy ns && truthy layer) then
    .error (.noTypenamePossible (jsToStringOpt tn) (jsToString ns) (jsToString layer))
  else
    .ok (if truthyOpt tn then tn.getD .null
         else .str (jsToString ns ++ ":" ++ jsToString layer ++ "Type"))

/-- The per-feature loop of `ensure.filter`: note the source calls
`unpack(feature, params)` with *no* requested names, so `layer` is bound to
the empty result object, not to the feature's layer name. -/
def filterGo : List JSObj → JSObj → String
  | [], _ => ""
  | f :: rest, params =>
    idFilter (.obj (unpack f params [])) (lookupJS f "id") ++ filterGo rest params

/-- `ensure.filter`: a truthy explicit filter is returned unchanged (string
coercion at the use sites); otherwise one `fes:ResourceId` per feature is
synthesized and wrapped in a single `fes:Filter` element. -/
def filter (filterArg : Option JSVal) (features : List JSObj) (params : JSObj) : String :=
  if !truthyOpt filterArg then
    "<fes:Filter>" ++ filterGo features params ++ "</fes:Filter>"
  else jsToString (filterArg.getD .null)

/-- `Insert`: normalizes the input to a feature list; an empty list logs a
warning (not modelled) and yields the empty string; otherwise the translated
features are wrapped in `wfs:Insert`. -/
def Insert (cfg : Bool) (input : Option FeaturesInput) (params : JSObj) :
    Except Err String := do
  let features ← array input
  let inputFormat := lookupJS params "inputFormat"
  let srsName := lookupJS params "srsName"
  let handle := lookupJS params "handle"
  if features.isEmpty then
    .ok ""
  else do
    let toInsert ← translateFeatures cfg features params
    wfs "Insert" [("inputFormat", inputFormat), ("srsName", srsName), ("handle", handle)]
      (some toInsert)

/-- `Update~makeKvp`: a `wfs:Property` holding a `wfs:ValueReference` and,
conditionally, a `wfs:Value` (nil-valued for `null`, omitted for
`undefined`, the coerced value otherwise).  The `action` attribute is never
supplied by the library (falsy, hence omitted). -/
def makeKvp (prop : JSVal) (val : Option JSVal) : Except Err String := do
  let value ← (match val with
    | some .null => wfs "Value" [("xsi:nil", some (.bool true))] (some "")
    | some v => wfs "Value" [] (some (jsToString v))
    | none => Except.ok "")
  let vref ← wfs "ValueReference" [("action", none)] (some (jsToString prop))
  wfs "Property" [] (some (vref ++ value))

/-- The bulk branch of `Update` (taken when `params.properties` is truthy):
resolves srsName/ns/layer/geometry_name from the first feature, forms the
typeName and the filter, emits one `makeKvp` per whitelisted property and an
optional replacement geometry, wrapped in `wfs:Update`. -/
def UpdateBulk (cfg : Bool) (features : List JSObj) (params : JSObj) :
    Except Err String := do
  let inputFormat := lookupJS params "inputFormat"
  let whitelist := lookupJS params "whitelist"
  let u := unpack (features.headD []) params ["srsName", "ns", "layer", "geometry_name"]
  let srsName := (lookupJS u "srsName").getD (.str "")
  let ns := (lookupJS u "ns").getD (.str "")
  let layer := (lookupJS u "layer").getD (.str "")
  let geometry_name := (lookupJS u "geometry_name").getD (.str "")
  let tn ← typeName ns layer (lookupJS params "typeName")
  let fl := filter (lookupJS params "filter") features params
  if fl == "" && features.isEmpty then
    .ok ""
  else do
    let props := (lookupJS params "properties").getD (.str "")
    let fields ← useWhitelistIfAvailable whitelist props
      (fun k v => makeKvp (.str k) (some (escape v)))
    let fields2 ←
      if truthy geometry_name then do
        let g ← (match lookupJS params "geometry" with
          | some (.geom g) => Except.ok g
          | _ => Except.error (.typeError "geometry is not a geometry object"))
        let r ← geomToGml cfg g (some (.str "")) ⟨some srsName, none, []⟩
        let t ← tag ns geometry_name [] (some (gmlText r))
        let kv ← makeKvp geometry_name (some (.str t))
        Except.ok (fields ++ kv)
      else Except.ok fields
    wfs "Update" [("inputFormat", inputFormat), ("srsName", some srsName),
      ("typeName", some tn)] (some (fields2 ++ fl))

/-- The per-feature branch of `Update`: for each feature the source recurses
into `Update(f, Object.assign(\x7b\x7d, params, \x7bproperties: f.properties\x7d))`;
the recursive call re-wraps `f` and re-tests `properties`, so it lands in the
bulk branch when the feature's own properties are truthy, and otherwise
recurses forever (a stack overflow in JavaScript), modelled by
`Err.stackOverflow`. -/
def updateEach (cfg : Bool) : List JSObj → JSObj → Except Err String
  | [], _ => .ok ""
  | f :: rest, params => do
    let params2 := match lookupJS f "properties" with
      | some v => objSet params "properties" v
      | none => objRemove params "properties"
    let s ← if truthyOpt (lookupJS params2 "properties") then UpdateBulk cfg [f] params2
            else Except.error Err.stackOverflow
    let r ← updateEach cfg rest params
    .ok (s ++ r)

/-- `Update`: bulk mode when `params.properties` is truthy, else one nested
bulk `Update` per feature. -/
def Update (cfg : Bool) (input : Option FeaturesInput) (params : JSObj) :
    Except Err String := do
  let features ← array input
  if truthyOpt (lookupJS params "properties") then
    UpdateBulk cfg features params
  else
    updateEach cfg features params

/-- `Delete`: forms a typeName from layer/ns (or the explicit one), the
filter from the features, and wraps in `wfs:Delete`. -/
def Delete (input : Option FeaturesInput) (params : JSObj) : Except Err String := do
  let features ← array input
  let u := unpack (features.headD []) params ["layer", "ns"]
  let ns := (lookupJS u "ns").getD (.str "")
  let layer := (lookupJS u "layer").getD (.str "")
  let tn ← typeName ns layer (lookupJS params "typeName")
  let fl := filter (lookupJS params "filter") features params
  wfs "Delete" [("typeName", some tn)] (some fl)

/-- `Replace`: translates only the first feature (if any), computes the
filter from all features, and wraps in `wfs:Replace`. -/
def Replace (cfg : Bool) (input : Option FeaturesInput) (params : JSObj) :
    Except Err String := do
  let features ← array input
  let u := unpack (features.headD []) params ["filter", "inputFormat", "srsName"]
  let filterU := (lookupJS u "filter").getD (.str "")
  let inputFormat := (lookupJS u "inputFormat").getD (.str "")
  let srsName := (lookupJS u "srsName").getD (.str "")
  let replacements ← translateFeatures cfg
    (match features with | [] => [] | f :: _ => [f]) params
  let fl := filter (some filterU) features params
  wfs "Replace" [("inputFormat", some inputFormat), ("srsName", some srsName)]
    (some (replacements ++ fl))

/-- The shapes the `actions` argument of `Transaction` can take that the
source distinguishes: an array whose every element is a string, a single
string, or an object with optional `insert`/`update`/`delete` keys. -/
inductive ActionsInput where
  | arrayOfStrings (l : List String)
  | singleString (s : String)
  | bag (toInsert toUpdate toDelete : Option FeaturesInput)

/-- String coercion of the `actions` argument, as fed to the namespace scan
(an array joins its elements with commas, an object coerces to
`[object Object]`). -/
def actionsText : Option ActionsInput → String
  | none => "undefined"
  | some (.arrayOfStrings l) => String.intercalate "," l
  | some (.singleString s) => s
  | some (.bag _ _ _) => "[object Object]"

/-- The optional attributes copied onto `wfs:Transaction` when truthy. -/
def transactionParamNames : List String := ["srsName", "lockId", "releaseAction", "handle"]

/-- The regex `2\.0\.\d+` matched at the head of a character list. -/
def hasVersionAt : List Char → Bool
  | '2' :: '.' :: '0' :: '.' :: c :: _ => c.isDigit
  | _ => false

/-- The unanchored search loop of `RegExp.exec` for `2\.0\.\d+`. -/
def hasVersionGo : List Char → Bool
  | [] => false
  | l@(_ :: rest) => hasVersionAt l || hasVersionGo rest

/-- Whether `/2\.0\.\d+/.exec(s)` finds a match anywhere in `s`. -/
def hasVersionMatch (s : String) : Bool := hasVersionGo s.data

/-- The `version` attribute of the transaction:
`/2\.0\.\d+/.exec(version || '') ? version : '2.0.0'`. -/
def versionAttr (version : Option JSVal) : JSVal :=
  if hasVersionMatch (jsToString
      ((if truthyOpt version then version else some (.str "")).getD (.str ""))) then
    version.getD (.str "")
  else .str "2.0.0"

/-- The attribute object of the `wfs:Transaction` envelope: the namespace
assignments (which can throw), then `xsi:schemaLocation`, `service`,
`version`, then the truthy optional parameters. -/
def transactionAttrs (params : JSObj) (actions : Option ActionsInput) :
    Except Err JSObj := do
  let nsAssignments := match lookupJS params "nsAssignments" with
    | some (.obj m) => m
    | _ => []
  let a1 ← generateNsAssignments nsAssignments (actionsText actions)
  let a2 := objSet a1 "xsi:schemaLocation"
    (.str (generateSchemaLines (lookupJS params "schemaLocations")))
  let a3 := objSet a2 "service" (.str "WFS")
  let a4 := objSet a3 "version" (versionAttr (lookupJS params "version"))
  .ok (transactionParamNames.foldl (fun a pname =>
    match lookupJS params pname with
    | some v => if truthy v then objSet a pname v else a
    | none => a) a4)

/-- `Transaction`: classifies `actions` (all-string array, single string, or
a bag with at least one truthy `insert`/`update`/`delete` key — anything
else throws), invokes the builders on the bag unconditionally for all three
keys, then wraps the concatenation in the decorated `wfs:Transaction`
envelope. -/
def Transaction (cfg : Bool) (actions : Option ActionsInput) (params : JSObj) :
    Except Err String := do
  let finalActions ← (match actions with
    | some (.arrayOfStrings l) => Except.ok (String.join l)
    | some (.singleString s) => Except.ok s
    | some (.bag i u d) =>
      if i.isSome || u.isSome || d.isSome then do
        let s1 ← Insert cfg i params
        let s2 ← Update cfg u params
        let s3 ← Delete d params
        Except.ok (s1 ++ s2 ++ s3)
      else Except.error (.unexpectedInput (actionsText actions))
    | none => Except.error (.unexpectedInput "undefined"))
  let attrsObj ← transactionAttrs params actions
  wfs "Transaction" (attrsObj.map (fun p => (p.1, some p.2))) (some finalActions)

/-!  Theorems about the embedded library, one per claim of the
specification, with supporting lemmas. -/

/-- Claim C2: filter synthesis was claimed to emit, per feature, a
`fes:ResourceId` whose rid is `"<layer>.<id>"`.  The code instead passes the
empty result of `unpack(feature, params)` (an empty object, since no names
are requested) where a layer name belongs, so the rid coerces that object to
`"[object Object]"`: a feature of layer `roads` and id `5` yields rid
`"[object Object].5"`.  The helpers themselves behave as specified: `id$1`
formats `roads`/`5` as `roads.5` and keeps a dotted id verbatim, and a
truthy explicit filter is returned unchanged. -/
theorem c2_code_eval :
    filter none [[("layer", .str "roads"), ("id", .str "5")]] [] =
      "<fes:Filter><fes:ResourceId rid=\"[object Object].5\"/></fes:Filter>" ∧
    id1 (.str "roads") (some (.str "5")) = .str "roads.5" ∧
    id1 (.str "roads") (some (.str "other.5")) = .str "other.5" ∧
    (∀ (fs : List JSObj) (ps : JSObj),
      filter (some (.str "<fes:Filter>custom</fes:Filter>")) fs ps =
        "<fes:Filter>custom</fes:Filter>") :=
  ⟨rfl, rfl, rfl, fun _ _ => rfl⟩

/-- Claim C3: a transaction bag holding only a `delete` key was claimed to
succeed with only a `wfs:Delete` fragment.  The code enters the bag branch
(at least one key is truthy) but then calls `Insert(undefined, params)`
unconditionally, and `ensure.array` reads `.features` of `undefined`: a
thrown TypeError, not a successful transaction.  The `Delete` builder alone
succeeds on the very same payload, showing the failure comes from the
unconditional invocation of the other builders. -/
theorem c3_code_eval :
    Transaction true
      (some (.bag none none (some (.list [[("layer", .str "roads"), ("id", .str "1")]]))))
      [("ns", .str "topp")] =
      .error (.typeError "cannot read features of undefined") ∧
    Delete (some (.list [[("layer", .str "roads"), ("id", .str "1")]]))
      [("ns", .str "topp")] =
      .ok ("<wfs:Delete typeName=\"topp:roadsType\"><fes:Filter>" ++
        "<fes:ResourceId rid=\"[object Object].1\"/></fes:Filter></wfs:Delete>") :=
  ⟨rfl, rfl⟩

/-- Claim C4: for an unrecognized geometry type tag, `geomToGml` was claimed
to raise an `UnsupportedGeometryError` naming the tag.  The dispatch fallback
`warn` *returns* `new Error(...)` without throwing it, so the encoder returns
normally with an `Error` object as its value (whose message does name the
tag); it does not raise. -/
theorem c4_code_eval :
    geomToGml true (.unknown "Banana") (some (.str "")) ⟨none, none, []⟩ =
      .ok (.errorObject "unkown: Banana [object Object],,[object Object]") ∧
    strContains "unkown: Banana [object Object],,[object Object]" "Banana" = true ∧
    (∀ e : Err,
      geomToGml true (.unknown "Banana") (some (.str "")) ⟨none, none, []⟩ ≠ .error e) :=
  ⟨rfl, rfl, fun _ h => Except.noConfusion h⟩

/-- Claim C5 (counterexample): encoding the claim's single Point feature into
an Insert with the claim's options bag `ns=tiger, layer=poi,
geometryName=geom` does *not* produce a `<tiger:geom>` element: the library
resolves the geometry-property name under the key `geometry_name`, so the
claim's `geometryName` option is ignored and the geometry field is skipped
entirely. -/
theorem c5_counterexample :
    Insert true
      (some (.list [[("id", .str "1"), ("geometry", .geom (.point [1, 2])),
        ("properties", .obj [("name", .str "a")])]]))
      [("ns", .str "tiger"), ("layer", .str "poi"), ("geometryName", .str "geom")] =
      .ok "<wfs:Insert><tiger:poi gml:id=\"poi.1\"><tiger:name>a</tiger:name></tiger:poi></wfs:Insert>" ∧
    strContains
      "<wfs:Insert><tiger:poi gml:id=\"poi.1\"><tiger:name>a</tiger:name></tiger:poi></wfs:Insert>"
      "<tiger:geom>" = false :=
  ⟨rfl, rfl⟩

/-- Claim C5 (amended): with the option key the library actually reads,
`geometry_name`, the Insert of the claim's Point feature contains
`gml:id="poi.1"`, a `<tiger:geom>` element wrapping `<gml:Point>` with
`<gml:pos>1 2</gml:pos>`, and a `<tiger:name>a</tiger:name>` field, all
inside `<wfs:Insert>`. -/
theorem c5_amended :
    Insert true
      (some (.list [[("id", .str "1"), ("geometry", .geom (.point [1, 2])),
        ("properties", .obj [("name", .str "a")])]]))
      [("ns", .str "tiger"), ("layer", .str "poi"), ("geometry_name", .str "geom")] =
      .ok "<wfs:Insert><tiger:poi gml:id=\"poi.1\"><tiger:geom><gml:Point><gml:pos>1 2</gml:pos></gml:Point></tiger:geom><tiger:name>a</tiger:name></tiger:poi></wfs:Insert>" ∧
    strContains
      "<wfs:Insert><tiger:poi gml:id=\"poi.1\"><tiger:geom><gml:Point><gml:pos>1 2</gml:pos></gml:Point></tiger:geom><tiger:name>a</tiger:name></tiger:poi></wfs:Insert>"
      "gml:id=\"poi.1\"" = true ∧
    strContains
      "<wfs:Insert><tiger:poi gml:id=\"poi.1\"><tiger:geom><gml:Point><gml:pos>1 2</gml:pos></gml:Point></tiger:geom><tiger:name>a</tiger:name></tiger:poi></wfs:Insert>"
      "<tiger:geom><gml:Point><gml:pos>1 2</gml:pos></gml:Point></tiger:geom>" = true ∧
    strContains
      "<wfs:Insert><tiger:poi gml:id=\"poi.1\"><tiger:geom><gml:Point><gml:pos>1 2</gml:pos></gml:Point></tiger:geom><tiger:name>a</tiger:name></tiger:poi></wfs:Insert>"
      "<tiger:name>a</tiger:name>" = true ∧
    strContains
      "<wfs:Insert><tiger:poi gml:id=\"poi.1\"><tiger:geom><gml:Point><gml:pos>1 2</gml:pos></gml:Point></tiger:geom><tiger:name>a</tiger:name></tiger:poi></wfs:Insert>"
      "<wfs:Insert>" = true :=
  ⟨rfl, rfl, rfl, rfl, rfl⟩

/-- Claim C7 (counterexample): the tuple `[10, 20, 0]` has length 3, yet with
the coordinate-order flag false the code tests the *truthiness* of the third
component, and for elevation `0` falls through to `Array.prototype.reverse`,
yielding `[0, 20, 10]` where the claim requires `[20, 10, 0]`. -/
theorem c7_counterexample :
    orderCoords false [10, 20, 0] = [0, 20, 10] ∧
    ([0, 20, 10] : List Int) ≠ [20, 10, 0] :=
  ⟨rfl, by decide⟩

/-- Claim C7 (amended): with the flag true the tuple is returned unchanged;
with the flag false a 2-tuple is swapped, and a 3-tuple is swapped with its
third component preserved only when that component is nonzero (truthy) — a
zero third component makes the whole tuple reverse.  (The in-place mutation
`coords.reverse()` performs on its input in JavaScript is outside this
value-level model.) -/
theorem c7_amended :
    (∀ l : List Int, orderCoords true l = l) ∧
    (∀ a b : Int, orderCoords false [a, b] = [b, a]) ∧
    (∀ a b c : Int, orderCoords false [a, b, c] =
      if c = 0 then [c, b, a] else [b, a, c]) := by
  refine ⟨fun l => rfl, fun a b => rfl, fun a b c => ?_⟩
  by_cases hc : c = 0 <;> simp [orderCoords, hc]

theorem lookupJS_unpack (f p : JSObj) (args : List String) (arg : String)
    (h : arg ∈ args) :
    lookupJS (unpack f p args) arg = some (resolveArg f p arg) := by
  induction args with
  | nil => cases h
  | cons a rest ih =>
    by_cases ha : a = arg
    · subst ha
      simp [unpack, lookupJS]
    · have hb : (a == arg) = false := by simp [ha]
      have hmem : arg ∈ rest := by
        cases List.mem_cons.mp h with
        | inl h2 => exact absurd h2.symm ha
        | inr h2 => exact h2
      simpa [unpack, lookupJS, hb] using ih hmem

theorem contains_eq_false_of_not_mem {l : List String} {a : String} (h : a ∉ l) :
    l.contains a = false := by
  cases hc : l.contains a
  · rfl
  · exact absurd (List.mem_of_elem_eq_true hc) h

theorem jsOrChain_cons_true {o : Option JSVal} {rest : List (Option JSVal)} {d : JSVal}
    (h : truthyOpt o = true) : jsOrChain (o :: rest) d = o.getD d := by
  simp [jsOrChain, h]

theorem jsOrChain_cons_false {o : Option JSVal} {rest : List (Option JSVal)} {d : JSVal}
    (h : truthyOpt o = false) : jsOrChain (o :: rest) d = jsOrChain rest d := by
  simp [jsOrChain, h]

theorem some_getD_of_truthy {o : Option JSVal} (h : truthyOpt o = true) (d : JSVal) :
    some (o.getD d) = o := by
  cases o with
  | none => simp [truthyOpt] at h
  | some v => rfl

/-- Claim C1 (counterexample): `id` is a reserved name, so the claim requires
the feature's value to win; but on a feature with `id = "f"` and an options
bag with `id = "o"`, `unpack` resolves `id` to the options value `"o"` — the
code's precedence for reserved names is options-first, the opposite of the
claim. -/
theorem c1_counterexample :
    lookupJS (unpack [("id", .str "f")] [("id", .str "o")] ["id"]) "id" =
      some (.str "o") ∧
    (some (JSVal.str "o") ≠ some (JSVal.str "f")) := by
  refine ⟨rfl, fun h => ?_⟩
  injection h with h1
  injection h1 with h2
  exact absurd h2 (by decide)

/-- Claim C1 (amended): `unpack` resolves each requested name with the
*opposite* of the claimed precedence.  For a name outside the reserved set
`featureMembers = [properties, geometry, id, layer]` the feature's truthy
value wins, then the options bag's, then `''`.  For a reserved name other
than `layer` the options value wins, then the feature's, then `''`.  For
`layer` the options side wins as well, each side first unwrapped through an
`{id: ...}` object when it is one (`(params.layer || {}).id || params.layer
|| (feature.layer || {}).id || feature.layer || ''`). -/
theorem c1_amended (f p : JSObj) (args : List String) (arg : String)
    (h : arg ∈ args) :
    (arg ∉ featureMembers → truthyOpt (lookupJS f arg) = true →
      lookupJS (unpack f p args) arg = lookupJS f arg) ∧
    (arg ∉ featureMembers → truthyOpt (lookupJS f arg) = false →
      truthyOpt (lookupJS p arg) = true →
      lookupJS (unpack f p args) arg = lookupJS p arg) ∧
    (arg ∉ featureMembers → truthyOpt (lookupJS f arg) = false →
      truthyOpt (lookupJS p arg) = false →
      lookupJS (unpack f p args) arg = some (.str "")) ∧
    (arg ∈ featureMembers → arg ≠ "layer" → truthyOpt (lookupJS p arg) = true →
      lookupJS (unpack f p args) arg = lookupJS p arg) ∧
    (arg ∈ featureMembers → arg ≠ "layer" → truthyOpt (lookupJS p arg) = false →
      truthyOpt (lookupJS f arg) = true →
      lookupJS (unpack f p args) arg = lookupJS f arg) ∧
    (arg ∈ featureMembers → arg ≠ "layer" → truthyOpt (lookupJS p arg) = false →
      truthyOpt (lookupJS f arg) = false →
      lookupJS (unpack f p args) arg = some (.str "")) ∧
    (arg = "layer" →
      lookupJS (unpack f p args) arg =
        some (jsOrChain [getIdOf (lookupJS p "layer"), lookupJS p "layer",
          getIdOf (lookupJS f "layer"), lookupJS f "layer"] (.str ""))) := by
  have hu := lookupJS_unpack f p args arg h
  have hlayerFalse : arg ∉ featureMembers → (arg == "layer") = false := by
    intro hnm
    simp only [beq_eq_false_iff_ne]
    intro he
    exact hnm (he ▸ (by decide : "layer" ∈ featureMembers))
  refine ⟨?_, ?_, ?_, ?_, ?_, ?_, ?_⟩
  · intro hnm hf
    have h1 := hlayerFalse hnm
    rw [hu, resolveArg, if_neg (by simp [h1]), if_pos (by simpa using hnm),
      jsOrChain_cons_true hf, some_getD_of_truthy hf]
  · intro hnm hf hp
    have h1 := hlayerFalse hnm
    rw [hu, resolveArg, if_neg (by simp [h1]), if_pos (by simpa using hnm),
      jsOrChain_cons_false hf, jsOrChain_cons_true hp, some_getD_of_truthy hp]
  · intro hnm hf hp
    have h1 := hlayerFalse hnm
    rw [hu, resolveArg, if_neg (by simp [h1]), if_pos (by simpa using hnm),
      jsOrChain_cons_false hf, jsOrChain_cons_false hp]
    rfl
  · intro hm hl hp
    rw [hu, resolveArg, if_neg (by simp [hl]), if_neg (by simpa using hm),
      jsOrChain_cons_true hp, some_getD_of_truthy hp]
  · intro hm hl hp hf
    rw [hu, resolveArg, if_neg (by simp [hl]), if_neg (by simpa using hm),
      jsOrChain_cons_false hp, jsOrChain_cons_true hf, some_getD_of_truthy hf]
  · intro hm hl hp hf
    rw [hu, resolveArg, if_neg (by simp [hl]), if_neg (by simpa using hm),
      jsOrChain_cons_false hp, jsOrChain_cons_false hf]
    rfl
  · intro hl
    subst hl
    rw [hu, resolveArg]
    simp

/-- Claim C1 (witness): the amended theorem applied at a concrete input —
the non-reserved name `ns` resolves to the feature's value even though the
options bag carries one. -/
theorem c1_amended_witness :
    lookupJS (unpack [("ns", .str "F")] [("ns", .str "O")] ["ns"]) "ns" =
      lookupJS [("ns", JSVal.str "F")] "ns" :=
  (c1_amended [("ns", .str "F")] [("ns", .str "O")] ["ns"] "ns"
    (by decide)).1 (by decide) rfl

theorem string_empty_append (s : String) : "" ++ s = s := by
  cases s
  rfl

theorem makeKvp_null (k : String) :
    makeKvp (.str k) (some JSVal.null) =
      .ok ("<wfs:Property><wfs:ValueReference>" ++ k ++
        "</wfs:ValueReference><wfs:Value xsi:nil=\"true\"></wfs:Value></wfs:Property>") := by
  simp [makeKvp, wfs, tag, attrs1, truthy, truthyOpt, jsToString, escape,
    String.append_assoc, String.join, Bind.bind, Except.bind]
  simp [← String.append_assoc]

theorem makeKvp_value (k : String) (v : JSVal) (h : v ≠ JSVal.null) :
    makeKvp (.str k) (some v) =
      .ok ("<wfs:Property><wfs:ValueReference>" ++ k ++
        "</wfs:ValueReference><wfs:Value>" ++ jsToString v ++
        "</wfs:Value></wfs:Property>") := by
  cases v <;>
    simp_all [makeKvp, wfs, tag, attrs1, truthy, truthyOpt, jsToString, escape,
      String.append_assoc, String.join, Bind.bind, Except.bind] <;>
    simp [← String.append_assoc]

theorem escape_null_iff (v : JSVal) : escape v = JSVal.null ↔ v = JSVal.null := by
  cases v <;> simp [escape]

theorem whitelistGo_update (props : List (String × JSVal)) (wl : List String) :
    whitelistGo wl (.obj props) (fun k v => makeKvp (.str k) (some (escape v))) =
      .ok (wl.foldr (fun k acc =>
        (match lookupJS props k with
         | none => ""
         | some .null => "<wfs:Property><wfs:ValueReference>" ++ k ++
             "</wfs:ValueReference><wfs:Value xsi:nil=\"true\"></wfs:Value></wfs:Property>"
         | some v => "<wfs:Property><wfs:ValueReference>" ++ k ++
             "</wfs:ValueReference><wfs:Value>" ++ jsToString (escape v) ++
             "</wfs:Value></wfs:Property>") ++ acc) "") := by
  induction wl with
  | nil => rfl
  | cons k rest ih =>
    cases hl : lookupJS props k with
    | none =>
      simp only [whitelistGo, getField, hl, List.foldr_cons]
      rw [ih]
      simp [string_empty_append]
    | some v =>
      cases v <;> simp only [whitelistGo, getField, hl, List.foldr_cons] <;>
        first
        | (rw [show escape JSVal.null = JSVal.null from rfl, makeKvp_null, ih]
           simp [Bind.bind, Except.bind])
        | (rw [makeKvp_value _ _ (by simp [escape_null_iff]), ih]
           simp [Bind.bind, Except.bind])

/-- Claim C6 (counterexample): in bulk-mode `Update`, a whitelisted property
whose value is `undefined` was claimed to emit a `wfs:Property` holding only
a `ValueReference`.  With whitelist `[a]` and an empty properties bag, the
property `a` is `undefined`, and the output contains no `wfs:Property` at
all: `useWhitelistIfAvailable` skips `undefined` values before the
`makeKvp` builder (whose ValueReference-only branch exists but is
unreachable from bulk `Update`) is ever called. -/
theorem c6_counterexample :
    Update true (some (.list []))
      [("properties", .obj []), ("whitelist", .arr [.str "a"]),
       ("typeName", .str "t:lT"), ("filter", .str "<fes:Filter>f</fes:Filter>")] =
      .ok "<wfs:Update typeName=\"t:lT\"><fes:Filter>f</fes:Filter></wfs:Update>" ∧
    strContains "<wfs:Update typeName=\"t:lT\"><fes:Filter>f</fes:Filter></wfs:Update>"
      "wfs:Property" = false :=
  ⟨rfl, rfl⟩

set_option maxRecDepth 4000 in
/-- Claim C6 (amended): in bulk-mode `Update`, for every whitelisted
property: a literally-`null` value emits a `wfs:Property` with the
`ValueReference` and a nil-valued `wfs:Value` (`xsi:nil`); any other
*defined* value emits a `wfs:Property` with the `ValueReference` and an
escaped `wfs:Value`; an `undefined` value emits nothing at all — the
property is skipped entirely, with no `wfs:Property` element (the
ValueReference-only rendering claimed for `undefined` does not occur).
Stated for the whitelist iteration exactly as bulk `Update` invokes it, plus
a concrete bulk `Update` exercising the null/defined cases. -/
theorem c6_amended :
    (∀ (wl : List String) (props : List (String × JSVal)),
      useWhitelistIfAvailable (some (.arr (wl.map JSVal.str))) (.obj props)
        (fun k v => makeKvp (.str k) (some (escape v))) =
      .ok (wl.foldr (fun k acc =>
        (match lookupJS props k with
         | none => ""
         | some .null => "<wfs:Property><wfs:ValueReference>" ++ k ++
             "</wfs:ValueReference><wfs:Value xsi:nil=\"true\"></wfs:Value></wfs:Property>"
         | some v => "<wfs:Property><wfs:ValueReference>" ++ k ++
             "</wfs:ValueReference><wfs:Value>" ++ jsToString (escape v) ++
             "</wfs:Value></wfs:Property>") ++ acc) "")) ∧
    Update true (some (.list []))
      [("properties", .obj [("a", .null), ("b", .str "x&")]),
       ("whitelist", .arr [.str "a", .str "b", .str "c"]),
       ("typeName", .str "t:lT"), ("filter", .str "<fes:Filter>f</fes:Filter>")] =
      .ok ("<wfs:Update typeName=\"t:lT\"><wfs:Property><wfs:ValueReference>a" ++
        "</wfs:ValueReference><wfs:Value xsi:nil=\"true\"></wfs:Value></wfs:Property>" ++
        "<wfs:Property><wfs:ValueReference>b</wfs:ValueReference><wfs:Value>x&amp;" ++
        "</wfs:Value></wfs:Property><fes:Filter>f</fes:Filter></wfs:Update>") := by
  refine ⟨fun wl props => ?_, rfl⟩
  rw [useWhitelistIfAvailable]
  have hmap : List.map jsToString (List.map JSVal.str wl) = wl := by
    induction wl with
    | nil => rfl
    | cons a l ihl => simp [ihl, jsToString]
  simp only [truthyOpt, truthy, Option.getD, iterTexts, Bind.bind, Except.bind, hmap,
    Bool.not_false, if_true]
  exact whitelistGo_update props wl

theorem versionAttr_some (v : JSVal) :
    versionAttr (some v) = if hasVersionMatch (jsToString v) then v else .str "2.0.0" := by
  by_cases ht : truthy v = true
  · simp [versionAttr, truthyOpt, ht]
  · cases v with
    | str s =>
      have hs : s = "" := by
        by_contra hne
        exact ht (by simp [truthy, hne])
      subst hs
      rfl
    | num n =>
      have hn : n = 0 := by
        by_contra hne
        exact ht (by simp [truthy, hne])
      subst hn
      rfl
    | bool b =>
      cases b with
      | false => rfl
      | true => exact absurd rfl ht
    | null => rfl
    | obj fields => exact absurd rfl ht
    | arr l => exact absurd rfl ht
    | geom g => exact absurd rfl ht

/-- Claim C9 (counterexample): the supplied version string `"12.0.3"` is not
of the form `2.0.x`, so the claim requires it to be overridden to `"2.0.0"`;
but the source's check is the unanchored search `/2\.0\.\d+/.exec(version)`,
which finds `"2.0.3"` inside `"12.0.3"`, so the emitted `version` attribute
is `"12.0.3"`, preserved verbatim. -/
theorem c9_counterexample :
    (transactionAttrs [("version", .str "12.0.3")] (some (.singleString ""))).map
      (fun a => (lookupJS a "version").map jsToString) = .ok (some "12.0.3") ∧
    "12.0.3" ≠ "2.0.0" :=
  ⟨rfl, by decide⟩

set_option maxHeartbeats 1000000 in
/-- Claim C9 (amended): the `version` attribute of the emitted
`wfs:Transaction` is `"2.0.0"` when no version is supplied, and a supplied
version is preserved verbatim exactly when the *search* for the pattern
`2.0.<digits>` succeeds somewhere inside the coerced version string (so
`"2.0.5"` is preserved, `"1.0.0"` is overridden to `"2.0.0"`, but also e.g.
`"12.0.3"` is preserved because it contains `"2.0.3"`); any version in which
the pattern does not occur is overridden to `"2.0.0"`. -/
theorem c9_amended :
    (∀ v : JSVal, ∃ a,
      transactionAttrs [("version", v)] (some (.singleString "")) = .ok a ∧
      lookupJS a "version" =
        some (if hasVersionMatch (jsToString v) then v else .str "2.0.0")) ∧
    (∃ a, transactionAttrs [] (some (.singleString "")) = .ok a ∧
      lookupJS a "version" = some (.str "2.0.0")) ∧
    hasVersionMatch "2.0.0" = true ∧
    hasVersionMatch "2.0.5" = true ∧
    hasVersionMatch "1.0.0" = false ∧
    hasVersionMatch "12.0.3" = true := by
  refine ⟨fun v => ⟨_, rfl, ?_⟩, ⟨_, rfl, rfl⟩, rfl, rfl, rfl, rfl⟩
  show some (versionAttr (some v)) = _
  rw [versionAttr_some]

/-- Claim C10: for a feature with no `layer` field and an options bag with
none either, the resolved layer name is the empty string; `translateFeatures`
passes it to `xml.tag` as the element tag name, and `tag` throws its
`no tag supplied` Error (here for a feature carrying an `id` and one
non-null property under a nonempty name) — `Insert` neither returns a
fragment nor merely warns. -/
theorem c10_insert_throws (idv pval : JSVal) (pname : String)
    (h1 : pname ≠ "") (h2 : pval ≠ JSVal.null) :
    Insert true (some (.single [("id", idv), ("properties", .obj [(pname, pval)])])) [] =
      .error (.noTagSupplied "" "") := by
  have hb : (pname == "") = false := by simp [h1]
  cases pval <;>
    simp_all [Insert, array, translateFeatures, translateGo, translateFeature,
      unpack, resolveArg, featureMembers, lookupJS, jsOrChain, truthyOpt, truthy,
      getIdOf, getField, useWhitelistIfAvailable, iterTexts, jsKeys, whitelistGo,
      tag, wfs, attrs1, escape, jsToString, Bind.bind, Except.bind]

/-- Claim C10 (witness): the theorem applied to the concrete feature
`id="1"` with property `name="a"` and an empty options bag. -/
theorem c10_insert_throws_witness :
    Insert true (some (.single [("id", .str "1"),
      ("properties", .obj [("name", .str "a")])])) [] =
      .error (.noTagSupplied "" "") :=
  c10_insert_throws (.str "1") (.str "a") "name" (by decide)
    (fun h => JSVal.noConfusion h)

theorem lookup_map_set (k : String) (v : JSVal) :
    ∀ m : JSObj, m.any (fun p => p.1 == k) = true →
      lookupJS (m.map (fun p => if p.1 == k then (k, v) else p)) k = some v
  | [], h => by simp at h
  | p :: rest, h => by
    by_cases hp : (p.1 == k) = true
    · simp [lookupJS, hp]
    · have hr : rest.any (fun q => q.1 == k) = true := by
        simp only [List.any_cons, Bool.or_eq_true] at h
        cases h with
        | inl h1 => exact absurd h1 hp
        | inr h2 => exact h2
      have hpf : (p.1 == k) = false := by simpa using hp
      simpa [List.map_cons, lookupJS, hpf] using lookup_map_set k v rest hr

theorem lookup_none_of_any_false (k : String) :
    ∀ m : JSObj, m.any (fun p => p.1 == k) = false → lookupJS m k = none
  | [], _ => rfl
  | p :: rest, h => by
    simp only [List.any_cons, Bool.or_eq_false_iff] at h
    simpa [lookupJS, h.1] using lookup_none_of_any_false k rest h.2

theorem lookup_append_single_self (k : String) (v : JSVal) :
    ∀ m : JSObj, lookupJS m k = none → lookupJS (m ++ [(k, v)]) k = some v
  | [], _ => by simp [lookupJS]
  | p :: rest, h => by
    cases hp : (p.1 == k) with
    | true => simp [lookupJS, hp] at h
    | false =>
      simp only [lookupJS, hp] at h
      simp only [List.cons_append, lookupJS, hp]
      simpa using lookup_append_single_self k v rest (by simpa using h)

theorem lookupJS_objSet_self (m : JSObj) (k : String) (v : JSVal) :
    lookupJS (objSet m k v) k = some v := by
  rw [objSet]
  by_cases hany : m.any (fun p => p.1 == k) = true
  · rw [if_pos hany]
    exact lookup_map_set k v m hany
  · rw [if_neg hany]
    exact lookup_append_single_self k v m
      (lookup_none_of_any_false k m (Bool.eq_false_iff.mpr hany))

theorem lookup_map_set_ne (k v k2) (h : k ≠ k2) :
    ∀ m : JSObj, lookupJS (m.map (fun p => if p.1 == k then (k, v) else p)) k2 =
      lookupJS m k2
  | [] => rfl
  | p :: rest => by
    by_cases hp : (p.1 == k) = true
    · have hpk : p.1 = k := by simpa using hp
      have h1 : (k == k2) = false := beq_eq_false_iff_ne.mpr h
      have h2 : (p.1 == k2) = false := by rw [hpk]; exact h1
      simp only [List.map_cons, lookupJS, hp]
      simpa [lookupJS, h1, h2] using lookup_map_set_ne k v k2 h rest
    · have hpf : (p.1 == k) = false := by simpa using hp
      cases hq : (p.1 == k2) with
      | true => simp [lookupJS, hpf, hq]
      | false =>
        simpa [List.map_cons, lookupJS, hpf, hq] using lookup_map_set_ne k v k2 h rest

theorem lookup_append_single_ne (k v k2) (h : k ≠ k2) :
    ∀ m : JSObj, lookupJS (m ++ [(k, v)]) k2 = lookupJS m k2
  | [] => by
    have hb : (k == k2) = false := beq_eq_false_iff_ne.mpr h
    simp [lookupJS, hb]
  | p :: rest => by
    cases hq : (p.1 == k2) with
    | true => simp [lookupJS, hq]
    | false =>
      simpa [List.cons_append, lookupJS, hq] using lookup_append_single_ne k v k2 h rest

theorem lookupJS_objSet_ne (m : JSObj) (k k2 : String) (v : JSVal) (h : k ≠ k2) :
    lookupJS (objSet m k v) k2 = lookupJS m k2 := by
  rw [objSet]
  by_cases hany : m.any (fun p => p.1 == k) = true
  · rw [if_pos hany]
    exact lookup_map_set_ne k v k2 h m
  · rw [if_neg hany]
    exact lookup_append_single_ne k v k2 h m

theorem string_data_append (s t : String) : (s ++ t).data = s.data ++ t.data := by
  cases s
  cases t
  rfl

theorem string_append_left_inj (a : String) {b c : String}
    (h : a ++ b = a ++ c) : b = c := by
  have hd := congrArg String.data h
  rw [string_data_append, string_data_append] at hd
  have hbc := List.append_cancel_left hd
  cases b
  cases c
  exact congrArg String.mk hbc

/-- Claim C8: namespace assignment starts from the declared map, injects the
default `fes` URI exactly when `fes` is discovered in the text (tag openings
`<ns:` or `typeName="ns:` values), unconditionally injects the default
`xsi`, `gml` (3.2) and `wfs` (2.0) URIs, and fails with the
unassigned-namespace error naming the missing namespace exactly on a
discovered namespace outside those four that still has no truthy URI in the
declared map; declaring only `fes` against text using `custom:` raises the
error naming `custom`. -/
theorem c8_namespace_assignment (declared : JSObj) (xml : String) :
    (∀ e, generateNsAssignments declared xml = .error e →
      ∃ pre, e = .unassignedNamespace pre ∧ pre ∈ scanNamespaces xml ∧
        pre ≠ "fes" ∧ pre ≠ "xsi" ∧ pre ≠ "gml" ∧ pre ≠ "wfs" ∧
        truthyOpt (lookupJS (nsDeclaredAttrs declared) ("xmlns:" ++ pre)) = false) ∧
    (∀ out, generateNsAssignments declared xml = .ok out →
      lookupJS out "xmlns:xsi" =
        some (.str "http://www.w3.org/2001/XMLSchema-instance") ∧
      lookupJS out "xmlns:gml" = some (.str "http://www.opengis.net/gml/3.2") ∧
      lookupJS out "xmlns:wfs" = some (.str "http://www.opengis.net/wfs/2.0") ∧
      ("fes" ∈ scanNamespaces xml →
        lookupJS out "xmlns:fes" = some (.str "http://www.opengis.net/fes/2.0")) ∧
      ("fes" ∉ scanNamespaces xml →
        lookupJS out "xmlns:fes" = lookupJS (nsDeclaredAttrs declared) "xmlns:fes") ∧
      (∀ q, q ≠ "fes" → q ≠ "xsi" → q ≠ "gml" → q ≠ "wfs" →
        lookupJS out ("xmlns:" ++ q) =
          lookupJS (nsDeclaredAttrs declared) ("xmlns:" ++ q)) ∧
      (∀ pre, pre ∈ scanNamespaces xml →
        truthyOpt (lookupJS out ("xmlns:" ++ pre)) = true)) ∧
    generateNsAssignments [("fes", .str "http://www.opengis.net/fes/2.0")]
      "<custom:tag>x</custom:tag>" = .error (.unassignedNamespace "custom") := by
  refine ⟨?_, ?_, rfl⟩
  · intro e he
    simp only [generateNsAssignments] at he
    split at he
    case _ p heq =>
      obtain rfl : Err.unassignedNamespace p = e := (Except.error.injEq _ _).mp he
      have hmem := List.mem_of_find?_eq_some heq
      have hfalse : truthyOpt (lookupJS
          (objSet (objSet (objSet
            (if (scanNamespaces xml).contains "fes" = true then
              objSet (nsDeclaredAttrs declared) "xmlns:fes"
                (.str "http://www.opengis.net/fes/2.0")
             else nsDeclaredAttrs declared)
            "xmlns:xsi" (.str "http://www.w3.org/2001/XMLSchema-instance"))
            "xmlns:gml" (.str "http://www.opengis.net/gml/3.2"))
            "xmlns:wfs" (.str "http://www.opengis.net/wfs/2.0"))
          ("xmlns:" ++ p)) = false := by
        simpa using List.find?_some heq
      have hwfs : p ≠ "wfs" := by
        rintro rfl
        rw [show ("xmlns:" ++ "wfs" : String) = "xmlns:wfs" from rfl,
          lookupJS_objSet_self] at hfalse
        simp [truthyOpt, truthy] at hfalse
      have hgml : p ≠ "gml" := by
        rintro rfl
        rw [show ("xmlns:" ++ "gml" : String) = "xmlns:gml" from rfl,
          lookupJS_objSet_ne _ _ _ _ (by decide), lookupJS_objSet_self] at hfalse
        simp [truthyOpt, truthy] at hfalse
      have hxsi : p ≠ "xsi" := by
        rintro rfl
        rw [show ("xmlns:" ++ "xsi" : String) = "xmlns:xsi" from rfl,
          lookupJS_objSet_ne _ _ _ _ (by decide),
          lookupJS_objSet_ne _ _ _ _ (by decide), lookupJS_objSet_self] at hfalse
        simp [truthyOpt, truthy] at hfalse
      have hfes : p ≠ "fes" := by
        rintro rfl
        have hfc : (scanNamespaces xml).contains "fes" = true :=
          List.elem_eq_true_of_mem hmem
        rw [show ("xmlns:" ++ "fes" : String) = "xmlns:fes" from rfl,
          lookupJS_objSet_ne _ _ _ _ (by decide),
          lookupJS_objSet_ne _ _ _ _ (by decide),
          lookupJS_objSet_ne _ _ _ _ (by decide),
          if_pos hfc, lookupJS_objSet_self] at hfalse
        simp [truthyOpt, truthy] at hfalse
      have hkwfs : ("xmlns:wfs" : String) ≠ "xmlns:" ++ p := fun hh =>
        hwfs (string_append_left_inj "xmlns:"
          (show "xmlns:" ++ "wfs" = "xmlns:" ++ p from hh)).symm
      have hkgml : ("xmlns:gml" : String) ≠ "xmlns:" ++ p := fun hh =>
        hgml (string_append_left_inj "xmlns:"
          (show "xmlns:" ++ "gml" = "xmlns:" ++ p from hh)).symm
      have hkxsi : ("xmlns:xsi" : String) ≠ "xmlns:" ++ p := fun hh =>
        hxsi (string_append_left_inj "xmlns:"
          (show "xmlns:" ++ "xsi" = "xmlns:" ++ p from hh)).symm
      have hkfes : ("xmlns:fes" : String) ≠ "xmlns:" ++ p := fun hh =>
        hfes (string_append_left_inj "xmlns:"
          (show "xmlns:" ++ "fes" = "xmlns:" ++ p from hh)).symm
      refine ⟨p, rfl, hmem, hfes, hxsi, hgml, hwfs, ?_⟩
      rw [lookupJS_objSet_ne _ _ _ _ hkwfs, lookupJS_objSet_ne _ _ _ _ hkgml,
        lookupJS_objSet_ne _ _ _ _ hkxsi] at hfalse
      by_cases hfc : (scanNamespaces xml).contains "fes" = true
      · rw [if_pos hfc, lookupJS_objSet_ne _ _ _ _ hkfes] at hfalse
        exact hfalse
      · rw [if_neg hfc] at hfalse
        exact hfalse
    case _ heq => exact absurd he (by simp)
  · intro out he
    simp only [generateNsAssignments] at he
    split at he
    case _ p heq => exact absurd he (by simp)
    case _ heq =>
      obtain rfl := ((Except.ok.injEq _ _).mp he).symm
      refine ⟨?_, ?_, ?_, ?_, ?_, ?_, ?_⟩
      · rw [lookupJS_objSet_ne _ _ _ _ (by decide),
          lookupJS_objSet_ne _ _ _ _ (by decide), lookupJS_objSet_self]
      · rw [lookupJS_objSet_ne _ _ _ _ (by decide), lookupJS_objSet_self]
      · rw [lookupJS_objSet_self]
      · intro hmem
        have hfc : (scanNamespaces xml).contains "fes" = true :=
          List.elem_eq_true_of_mem hmem
        rw [lookupJS_objSet_ne _ _ _ _ (by decide),
          lookupJS_objSet_ne _ _ _ _ (by decide),
          lookupJS_objSet_ne _ _ _ _ (by decide),
          if_pos hfc, lookupJS_objSet_self]
      · intro hmem
        have hfc : ¬((scanNamespaces xml).contains "fes" = true) := fun hc =>
          hmem (List.mem_of_elem_eq_true hc)
        rw [lookupJS_objSet_ne _ _ _ _ (by decide),
          lookupJS_objSet_ne _ _ _ _ (by decide),
          lookupJS_objSet_ne _ _ _ _ (by decide), if_neg hfc]
      · intro q h1 h2 h3 h4
        have hkwfs : ("xmlns:wfs" : String) ≠ "xmlns:" ++ q := fun hh =>
          h4 (string_append_left_inj "xmlns:"
            (show "xmlns:" ++ "wfs" = "xmlns:" ++ q from hh)).symm
        have hkgml : ("xmlns:gml" : String) ≠ "xmlns:" ++ q := fun hh =>
          h3 (string_append_left_inj "xmlns:"
            (show "xmlns:" ++ "gml" = "xmlns:" ++ q from hh)).symm
        have hkxsi : ("xmlns:xsi" : String) ≠ "xmlns:" ++ q := fun hh =>
          h2 (string_append_left_inj "xmlns:"
            (show "xmlns:" ++ "xsi" = "xmlns:" ++ q from hh)).symm
        have hkfes : ("xmlns:fes" : String) ≠ "xmlns:" ++ q := fun hh =>
          h1 (string_append_left_inj "xmlns:"
            (show "xmlns:" ++ "fes" = "xmlns:" ++ q from hh)).symm
        rw [lookupJS_objSet_ne _ _ _ _ hkwfs, lookupJS_objSet_ne _ _ _ _ hkgml,
          lookupJS_objSet_ne _ _ _ _ hkxsi]
        by_cases hfc : (scanNamespaces xml).contains "fes" = true
        · rw [if_pos hfc, lookupJS_objSet_ne _ _ _ _ hkfes]
        · rw [if_neg hfc]
      · intro pre hm
        have hnp := List.find?_eq_none.mp heq pre hm
        simpa using hnp

/-- Claim C8 (witness): the theorem's success case applied at the concrete
declaration `tiger -> X` and text `<tiger:a>b</tiger:a>`: the default `xsi`
URI is present in the computed assignment object. -/
theorem c8_witness :
    lookupJS [("xmlns:tiger", JSVal.str "X"),
      ("xmlns:xsi", JSVal.str "http://www.w3.org/2001/XMLSchema-instance"),
      ("xmlns:gml", JSVal.str "http://www.opengis.net/gml/3.2"),
      ("xmlns:wfs", JSVal.str "http://www.opengis.net/wfs/2.0")] "xmlns:xsi" =
      some (.str "http://www.w3.org/2001/XMLSchema-instance") :=
  ((c8_namespace_assignment [("tiger", .str "X")] "<tiger:a>b</tiger:a>").2.1
    _ rfl).1

end GeoWfst
